import Mathlib

/-
Verification of the synchronization program in `src/main.py`
(toroto-parte02): a one-shot mirror of a relational table of
construction work items into a remote tabular document, via
delete-all-then-insert-all with batching and retry/backoff.

The Python source is shallowly embedded below.  Network calls are
modelled by passing the remote world's data (listing results, response
codes) as explicit arguments; the sequence of HTTP requests a run makes
is returned as an explicit trace.
-/

namespace Toroto

/-- A calendar date as produced by `pd.to_datetime` (a pandas
Timestamp; only the fields the program touches are kept). -/
structure PyDate where
  year : Nat
  month : Nat
  day : Nat
deriving DecidableEq, Repr

/-- A raw cell value as it comes out of the database for a `Date`
column: SQL NULL, an actual date, or (in the degenerate scenario the
spec considers) an arbitrary string. -/
inductive Raw where
  | null : Raw
  | date : PyDate → Raw
  | text : String → Raw
deriving DecidableEq, Repr

/-- Splitting on a character, with the semantics of `String.splitOn`
for a one-character separator, written on the character list so that it
evaluates by kernel reduction. -/
def splitOnChar (sep : Char) : List Char → List (List Char)
  | [] => [[]]
  | c :: cs =>
    if c = sep then [] :: splitOnChar sep cs
    else
      match splitOnChar sep cs with
      | [] => [[c]]
      | g :: gs => (c :: g) :: gs

/-- Numeric parsing of one date component, with the semantics of
`String.toNat?`: succeeds exactly on a nonempty all-digit string. -/
def toNatChars? (l : List Char) : Option Nat :=
  if l ≠ [] ∧ l.all Char.isDigit then
    some (l.foldl (fun acc c => acc * 10 + (c.toNat - 48)) 0)
  else none

/-- ISO `YYYY-MM-DD` parsing, the canonical format `pd.to_datetime`
accepts for strings coming from a SQL `Date` column.  Anything that is
not three dash-separated numbers with a plausible month/day fails. -/
def parseISO (s : String) : Option PyDate :=
  match splitOnChar '-' s.data with
  | [y, m, d] =>
    match toNatChars? y, toNatChars? m, toNatChars? d with
    | some yn, some mn, some dn =>
        if 1 ≤ mn ∧ mn ≤ 12 ∧ 1 ≤ dn ∧ dn ≤ 31 then some ⟨yn, mn, dn⟩ else none
    | _, _, _ => none
  | _ => none

/-- `pd.to_datetime(value, errors="coerce")` on a single cell: NULL and
unparseable values coerce to NaT (here `none`), never an exception
(main.py lines 77-78). -/
def pd_to_datetime_coerce (v : Raw) : Option PyDate :=
  match v with
  | .null => none
  | .date d => some d
  | .text s => parseISO s

/-- `proyectos` table (main.py lines 24-27). `id` is the primary key. -/
structure Proyecto where
  id : Int
  nombre : Option String
deriving DecidableEq, Repr

/-- `responsables` table (main.py lines 29-33). `id` is the primary key. -/
structure Responsable where
  id : Int
  nombre : Option String
  correo : Option String
deriving DecidableEq, Repr

/-- `obras` table (main.py lines 35-47). `id` is the primary key;
`proyecto_id` and `responsable_id` are nullable foreign keys. -/
structure Obra where
  id : Int
  nombre_obra : Option String
  proyecto_id : Option Int
  estado : Option String
  fecha_inicio : Raw
  fecha_fin : Raw
  responsable_id : Option Int
  fase : Option String
deriving DecidableEq, Repr

/-- The database state the extractor queries. -/
structure DB where
  proyectos : List Proyecto
  responsables : List Responsable
  obras : List Obra
deriving Repr

/-- `LEFT OUTER JOIN proyectos ON obras.proyecto_id = proyectos.id`
for one obra row: since `id` is the primary key there is at most one
match; a NULL foreign key matches nothing. -/
def joinProyecto (ps : List Proyecto) (o : Obra) : Option Proyecto :=
  match o.proyecto_id with
  | none => none
  | some pid => ps.find? (fun p => p.id == pid)

/-- `LEFT OUTER JOIN responsables ON obras.responsable_id = responsables.id`
for one obra row. -/
def joinResponsable (rs : List Responsable) (o : Obra) : Option Responsable :=
  match o.responsable_id with
  | none => none
  | some rid => rs.find? (fun r => r.id == rid)

/-- One row of the DataFrame built in `obtener_obras_orm` after the
date coercion of lines 77-78 and the derived `Año` column of line 81.
Absent values (NULL, NaT, NaN) are `none`. -/
structure SyncRow where
  nombre_obra : Option String
  proyecto : Option String
  estado : Option String
  fecha_inicio : Option PyDate
  fecha_fin : Option PyDate
  responsable : Option String
  correo : Option String
  fase : Option String
  anio : Option Nat
deriving DecidableEq, Repr

/-- What the query projection (main.py lines 56-67) together with the
per-column transformations of lines 77-81 does to one `obras` row:
outer-joined labels, date coercion with `errors="coerce"`, and the
derived year `df["Año"] = df["Fecha de inicio"].dt.year` (NaT start
dates give NaN, i.e. `none`). -/
def syncRowOf (db : DB) (o : Obra) : SyncRow :=
  let p := joinProyecto db.proyectos o
  let r := joinResponsable db.responsables o
  let fi := pd_to_datetime_coerce o.fecha_inicio
  { nombre_obra := o.nombre_obra
    proyecto := p.bind (fun x => x.nombre)
    estado := o.estado
    fecha_inicio := fi
    fecha_fin := pd_to_datetime_coerce o.fecha_fin
    responsable := r.bind (fun x => x.nombre)
    correo := r.bind (fun x => x.correo)
    fase := o.fase
    anio := fi.map (fun d => d.year) }

/-- `obtener_obras_orm` (main.py lines 51-83): outer-join query of the
three tables, one DataFrame row per `obras` row. -/
def obtener_obras_orm (db : DB) : List SyncRow :=
  db.obras.map (syncRowOf db)

/-- A Python value appearing in a post-`dropna` row dict: a string, a
number (the derived year), or a date/datetime.  There is no null
constructor because `row.dropna()` (main.py line 166) has already
removed every absent cell. -/
inductive Value where
  | str : String → Value
  | num : Int → Value
  | date : PyDate → Value
deriving DecidableEq, Repr

/-- A row dict as built by `row.dropna().to_dict()` (main.py line 166):
an ordered mapping column-label to value. -/
abbrev Fila := List (String × Value)

/-- One entry of `row.dropna().to_dict()`: present fields contribute
one key, absent fields nothing. -/
def optEntry (k : String) (v : Option Value) : Fila :=
  match v with
  | none => []
  | some x => [(k, x)]

/-- `row.dropna().to_dict()` (main.py line 166) applied to one
DataFrame row: dropna removes NaN/NaT/None cells and to_dict keeps the
remaining columns in DataFrame column order. -/
def dropna_to_dict (r : SyncRow) : Fila :=
  optEntry "Nombre de la obra" (r.nombre_obra.map Value.str) ++
  optEntry "Proyecto" (r.proyecto.map Value.str) ++
  optEntry "Estado" (r.estado.map Value.str) ++
  optEntry "Fecha de inicio" (r.fecha_inicio.map Value.date) ++
  optEntry "Fecha de finalización" (r.fecha_fin.map Value.date) ++
  optEntry "Responsable" (r.responsable.map Value.str) ++
  optEntry "Correo" (r.correo.map Value.str) ++
  optEntry "Fase" (r.fase.map Value.str) ++
  optEntry "Año" (r.anio.map (fun y => Value.num (Int.ofNat y)))

/-- Number of present (non-absent) fields of a row. -/
def numPresent (r : SyncRow) : Nat :=
  (if r.nombre_obra.isSome then 1 else 0) +
  (if r.proyecto.isSome then 1 else 0) +
  (if r.estado.isSome then 1 else 0) +
  (if r.fecha_inicio.isSome then 1 else 0) +
  (if r.fecha_fin.isSome then 1 else 0) +
  (if r.responsable.isSome then 1 else 0) +
  (if r.correo.isSome then 1 else 0) +
  (if r.fase.isSome then 1 else 0) +
  (if r.anio.isSome then 1 else 0)

/-- Two-digit zero padding, as `strftime` does for `%m` and `%d`. -/
def pad2 (n : Nat) : String :=
  if n < 10 then "0" ++ toString n else toString n

/-- Four-digit zero padding, as `strftime` does for `%Y`. -/
def pad4 (n : Nat) : String :=
  if n < 10 then "000" ++ toString n
  else if n < 100 then "00" ++ toString n
  else if n < 1000 then "0" ++ toString n
  else toString n

/-- `val.strftime("%Y-%m-%d")` (main.py line 131). -/
def strftime_ymd (d : PyDate) : String :=
  pad4 d.year ++ "-" ++ pad2 d.month ++ "-" ++ pad2 d.day

/-- A value as it goes on the wire. -/
inductive WireVal where
  | str : String → WireVal
  | num : Int → WireVal
deriving DecidableEq, Repr

/-- One wire-format cell of the insert payload. -/
structure Cell where
  column : String
  value : WireVal
deriving DecidableEq, Repr

/-- `serializar_fila` (main.py lines 128-134): one cell per dict entry,
dates and datetimes formatted `YYYY-MM-DD`, everything else passed
through unchanged. -/
def serializar_fila (fila : Fila) : List Cell :=
  fila.map (fun cv =>
    { column := cv.1
      value :=
        match cv.2 with
        | .date d => .str (strftime_ymd d)
        | .str s => .str s
        | .num n => .num n })

/-- Helper for `chunks`, structurally recursive so it evaluates:
`chunksAux n xs i` is `(xs.take i, chunks (n + 1) (xs.drop i))`. -/
def chunksAux (n : Nat) : List α → Nat → List α × List (List α)
  | [], _ => ([], [])
  | x :: xs, 0 =>
    let p := chunksAux n xs n
    ([], (x :: p.1) :: p.2)
  | x :: xs, i + 1 =>
    let p := chunksAux n xs i
    (x :: p.1, p.2)

/-- Slicing `l[i:i+k]` for `i in range(0, len(l), k)` (main.py lines
119 and 136): the list partitioned into consecutive chunks of size `k`
with a shorter final chunk.  A step of `0` would raise in Python and
never occurs (the batch sizes are the literals 50 and 10); that case
returns `[]` here. -/
def chunks : Nat → List α → List (List α)
  | _, [] => []
  | 0, _ :: _ => []
  | k + 1, x :: xs =>
    let p := chunksAux k xs k
    (x :: p.1) :: p.2

/-- An item of a remote listing response: `{id, name}`. -/
structure Item where
  id : String
  name : String
deriving DecidableEq, Repr

/-- One `DELETE .../rows` request body: `{"rowIds": [...]}`. -/
structure DeleteCall where
  rowIds : List String
deriving DecidableEq, Repr

/-- `eliminar_todas_las_filas` (main.py lines 111-125), given the rows
the `GET .../rows` listing returned: extracts the ids and issues one
batched DELETE per 50-slice.  Response status only affects logging
(lines 122-125), never which requests are made, so the result is the
list of DELETE calls issued. -/
def eliminar_todas_las_filas (rows : List Item) : List DeleteCall :=
  (chunks 50 (rows.map (fun row => row.id))).map (fun b => { rowIds := b })

/-- Terminal state of the per-batch retry loop (main.py lines 140-152). -/
inductive Outcome where
  | accepted : Nat → Outcome
  | rejected : Nat → Nat → Outcome
  | maxRetries : Outcome
deriving DecidableEq, Repr

/-- What one batch's retry loop did: how many POSTs it sent, which
sleeps it performed (in order), and how it ended. -/
structure BatchTrace where
  posts : Nat
  sleeps : List Nat
  outcome : Outcome
deriving DecidableEq, Repr

/-- The retry loop body `for intento in range(max_reintentos)` (main.py
lines 140-152), unrolled on remaining iterations: POST the batch; on
202 break (accepted), on 429 sleep `2 ** intento` and go round again,
on anything else break (rejected).  `resp intento` is the HTTP status
the server returns to the POST of attempt `intento`. -/
def subirBatchAux (resp : Nat → Nat) : (fuel intento : Nat) → BatchTrace
  | 0, _ => { posts := 0, sleeps := [], outcome := .maxRetries }
  | fuel + 1, intento =>
    let code := resp intento
    if code = 202 then
      { posts := 1, sleeps := [], outcome := .accepted intento }
    else if code = 429 then
      let rest := subirBatchAux resp fuel (intento + 1)
      { posts := rest.posts + 1, sleeps := 2 ^ intento :: rest.sleeps, outcome := rest.outcome }
    else
      { posts := 1, sleeps := [], outcome := .rejected intento code }

/-- The whole retry loop for one batch, attempts numbered from 0. -/
def subirBatch (resp : Nat → Nat) (max_reintentos : Nat) : BatchTrace :=
  subirBatchAux resp max_reintentos 0

/-- What the inserter did for one batch: the serialized POST payload
(`{"rows": [...]}`) and the retry-loop trace. -/
structure BatchResult where
  payload : List (List Cell)
  trace : BatchTrace
deriving Repr

/-- `insertar_filas_en_bloques` (main.py lines 127-152) with the
default arguments `batch_size=10, max_reintentos=5` passed explicitly:
partitions `filas` into `batch_size`-slices, serializes each batch, and
runs the retry loop on it.  `resp i intento` is the HTTP status of the
POST for batch `i`, attempt `intento`.  Every batch is processed
regardless of earlier batches' outcomes, and nothing is raised. -/
def insertar_filas_en_bloques (resp : Nat → Nat → Nat) (filas : List Fila)
    (batch_size max_reintentos : Nat) : List BatchResult :=
  (chunks batch_size filas).enum.map (fun ib =>
    { payload := ib.2.map serializar_fila
      trace := subirBatch (resp ib.1) max_reintentos })

/-- `obtener_documento_id_por_nombre` (main.py lines 87-97), given the
items of the `GET /docs` listing: scan in order for the first exact
name match and return its id; raise `ValueError` (modelled as
`Except.error`) when none matches. -/
def obtener_documento_id_por_nombre (documentos : List Item) (nombre : String) :
    Except String String :=
  match documentos with
  | [] => .error ("No se encontró el documento con nombre " ++ nombre)
  | doc :: rest =>
    if doc.name = nombre then .ok doc.id
    else obtener_documento_id_por_nombre rest nombre

/-- `obtener_table_id` (main.py lines 99-109), given the items of the
`GET /docs/{docId}/tables` listing: same first-exact-match scan. -/
def obtener_table_id (tablas : List Item) (nombre_tabla : String) :
    Except String String :=
  match tablas with
  | [] => .error ("No se encontró la tabla " ++ nombre_tabla ++ " en el documento.")
  | tabla :: rest =>
    if tabla.name = nombre_tabla then .ok tabla.id
    else obtener_table_id rest nombre_tabla

/-- An HTTP request the program can make against the remote API. -/
inductive ApiCall where
  | getDocs : ApiCall
  | getTables : String → ApiCall
  | getRows : String → String → ApiCall
  | deleteRows : String → String → List String → ApiCall
  | postRows : String → String → List (List Cell) → ApiCall
deriving DecidableEq, Repr

/-- Whether a request mutates the remote table (DELETE or POST rows). -/
def ApiCall.isMutating : ApiCall → Bool
  | .deleteRows _ _ _ => true
  | .postRows _ _ _ => true
  | _ => false

/-- The remote service's state and behaviour for one run: the listing
results and, for the insert phase, the status code returned to the POST
of batch `i`, attempt `intento`. -/
structure World where
  docs : List Item
  tables : String → List Item
  rows : String → String → List Item
  insertResp : Nat → Nat → Nat

/-- The `__main__` block (main.py lines 156-169): resolve the document
id, then the table id, then extract, purge and insert.  Returns the
ordered trace of HTTP requests issued and `some message` when an
uncaught `ValueError` aborts the run (in which case the trace stops at
the point of the raise). -/
def mainRun (w : World) (db : DB) (nombre_documento nombre_tabla : String) :
    List ApiCall × Option String :=
  match obtener_documento_id_por_nombre w.docs nombre_documento with
  | .error e => ([.getDocs], some e)
  | .ok doc_id =>
    match obtener_table_id (w.tables doc_id) nombre_tabla with
    | .error e => ([.getDocs, .getTables doc_id], some e)
    | .ok table_id =>
      let filas_dicts := (obtener_obras_orm db).map dropna_to_dict
      let delCalls := (eliminar_todas_las_filas (w.rows doc_id table_id)).map
        (fun c => ApiCall.deleteRows doc_id table_id c.rowIds)
      let results := insertar_filas_en_bloques w.insertResp filas_dicts 10 5
      let insCalls := (results.map (fun b =>
        List.replicate b.trace.posts (ApiCall.postRows doc_id table_id b.payload))).flatten
      ([.getDocs, .getTables doc_id, .getRows doc_id table_id] ++ delCalls ++ insCalls,
       none)

/-! Helper lemmas about the slicing loop `chunks`. -/

theorem chunksAux_eq {α : Type} (n : Nat) (xs : List α) : ∀ i : Nat,
    chunksAux n xs i = (xs.take i, chunks (n + 1) (xs.drop i)) := by
  induction xs with
  | nil => intro i; simp [chunksAux, chunks]
  | cons x xs ih =>
    intro i
    cases i with
    | zero => simp [chunksAux, chunks, ih]
    | succ i => simp [chunksAux, ih]

theorem chunks_cons {α : Type} (k : Nat) (x : α) (xs : List α) :
    chunks (k + 1) (x :: xs) = (x :: xs.take k) :: chunks (k + 1) (xs.drop k) := by
  show (x :: (chunksAux k xs k).1) :: (chunksAux k xs k).2 = _
  rw [chunksAux_eq]

theorem chunks_length_of_le {α : Type} (k : Nat) :
    ∀ (n : Nat) (l : List α), l.length ≤ n →
      (chunks (k + 1) l).length = (l.length + k) / (k + 1) := by
  intro n
  induction n with
  | zero =>
    intro l hl
    have hl0 : l = [] := List.length_eq_zero.mp (Nat.le_zero.mp hl)
    subst hl0
    simp [chunks, Nat.div_eq_of_lt (Nat.lt_succ_self k)]
  | succ n ih =>
    intro l hl
    match l with
    | [] => simp [chunks, Nat.div_eq_of_lt (Nat.lt_succ_self k)]
    | x :: xs =>
      have hlen : (xs.drop k).length ≤ n := by
        simp only [List.length_drop]
        simp only [List.length_cons] at hl
        omega
      rw [chunks_cons, List.length_cons, ih (xs.drop k) hlen, List.length_drop,
        List.length_cons]
      have h2 : xs.length + 1 + k = xs.length + (k + 1) := by omega
      rw [h2, Nat.add_div_right _ (Nat.succ_pos k)]
      rcases Nat.le_total k xs.length with hk | hk
      · have h3 : xs.length - k + k = xs.length := by omega
        rw [h3]
      · have h3 : xs.length - k = 0 := by omega
        rw [h3, Nat.zero_add, Nat.div_eq_of_lt (Nat.lt_succ_self k),
          Nat.div_eq_of_lt (by omega : xs.length < k + 1)]

theorem chunks_length {α : Type} (k : Nat) (l : List α) :
    (chunks (k + 1) l).length = (l.length + k) / (k + 1) :=
  chunks_length_of_le k l.length l (Nat.le_refl _)

theorem chunks_mem_length_of_le {α : Type} (k : Nat) :
    ∀ (n : Nat) (l : List α), l.length ≤ n →
      ∀ b ∈ chunks (k + 1) l, b.length ≤ k + 1 := by
  intro n
  induction n with
  | zero =>
    intro l hl
    have hl0 : l = [] := List.length_eq_zero.mp (Nat.le_zero.mp hl)
    subst hl0
    simp [chunks]
  | succ n ih =>
    intro l hl b hb
    match l with
    | [] => simp [chunks] at hb
    | x :: xs =>
      rw [chunks_cons] at hb
      rcases List.mem_cons.mp hb with hb | hb
      · subst hb
        simp only [List.length_cons, List.length_take]
        omega
      · have hlen : (xs.drop k).length ≤ n := by
          simp only [List.length_drop]
          simp only [List.length_cons] at hl
          omega
        exact ih (xs.drop k) hlen b hb

theorem chunks_mem_length {α : Type} (k : Nat) (l : List α) :
    ∀ b ∈ chunks (k + 1) l, b.length ≤ k + 1 :=
  chunks_mem_length_of_le k l.length l (Nat.le_refl _)

theorem chunks_flatten_of_le {α : Type} (k : Nat) :
    ∀ (n : Nat) (l : List α), l.length ≤ n → (chunks (k + 1) l).flatten = l := by
  intro n
  induction n with
  | zero =>
    intro l hl
    have hl0 : l = [] := List.length_eq_zero.mp (Nat.le_zero.mp hl)
    subst hl0
    simp [chunks]
  | succ n ih =>
    intro l hl
    match l with
    | [] => simp [chunks]
    | x :: xs =>
      have hlen : (xs.drop k).length ≤ n := by
        simp only [List.length_drop]
        simp only [List.length_cons] at hl
        omega
      rw [chunks_cons, List.flatten_cons, ih (xs.drop k) hlen]
      simp [List.take_append_drop]

theorem chunks_flatten {α : Type} (k : Nat) (l : List α) :
    (chunks (k + 1) l).flatten = l :=
  chunks_flatten_of_le k l.length l (Nat.le_refl _)

/-! Helper lemmas about `List.enumFrom`. -/

theorem enumFrom_map_snd {α β : Type} (f : α → β) :
    ∀ (l : List α) (n : Nat),
      (List.enumFrom n l).map (fun p => f p.2) = l.map f := by
  intro l
  induction l with
  | nil => intro n; rfl
  | cons x xs ih => intro n; simp [List.enumFrom, ih]

theorem snd_mem_of_mem_enumFrom {α : Type} :
    ∀ (l : List α) (n : Nat) (p : Nat × α), p ∈ List.enumFrom n l → p.2 ∈ l := by
  intro l
  induction l with
  | nil => intro n p hp; simp [List.enumFrom] at hp
  | cons x xs ih =>
    intro n p hp
    rcases List.mem_cons.mp hp with hp | hp
    · subst hp; simp
    · exact List.mem_cons.mpr (Or.inr (ih (n + 1) p hp))

/-- Claim C1: for every database state, the extractor returns one
SyncRow per `obras` record; the outer joins never drop a row, whether
or not a matching Proyecto or Responsable exists. -/
theorem extractor_row_count_eq_obras (db : DB) :
    (obtener_obras_orm db).length = db.obras.length := by
  simp [obtener_obras_orm]

/-- Claim C3: a batch that is rate-limited (429) on attempts 0, 1 and 2
and accepted (202) on attempt 3 ends accepted, after sleeping 2^0, 2^1
and 2^2 time units, 1+2+4 = 7 cumulatively. -/
theorem rate_limited_thrice_then_accepted :
    subirBatch (fun i => if i < 3 then 429 else 202) 5 =
      { posts := 4, sleeps := [1, 2, 4], outcome := .accepted 3 } ∧
    (subirBatch (fun i => if i < 3 then 429 else 202) 5).sleeps.sum = 1 + 2 + 4 := by
  exact ⟨rfl, rfl⟩

/-- Claim C9: the backoff sleep happens before the attempt counter is
checked against the maximum, so a batch rate-limited on all 5 attempts
still sleeps 2^4 = 16 after its final failed POST, for a cumulative
wait of 1+2+4+8+16 = 31 before it is abandoned. -/
theorem backoff_sleep_precedes_attempt_check :
    subirBatch (fun _ => 429) 5 =
      { posts := 5, sleeps := [1, 2, 4, 8, 16], outcome := .maxRetries } ∧
    (subirBatch (fun _ => 429) 5).sleeps.sum = 1 + 2 + 4 + 8 + 16 ∧
    (subirBatch (fun _ => 429) 5).sleeps.getLast? = some 16 := by
  exact ⟨rfl, rfl, rfl⟩

theorem optEntry_length (k : String) (v : Option Value) :
    (optEntry k v).length = if v.isSome then 1 else 0 := by
  cases v <;> rfl

/-- Claim C2: the wire format has exactly one cell per present field
and none for absent fields: a row with only name and status populated
serializes to exactly its two cells, and in general the cell count of a
serialized row equals its number of present fields (no null-valued cell
exists, since `dropna` removed the absent ones). -/
theorem serializar_fila_cells_eq_present_fields (n e : String) :
    serializar_fila (dropna_to_dict
      { nombre_obra := some n, proyecto := none, estado := some e,
        fecha_inicio := none, fecha_fin := none, responsable := none,
        correo := none, fase := none, anio := none }) =
      [{ column := "Nombre de la obra", value := WireVal.str n },
       { column := "Estado", value := WireVal.str e }] ∧
    ∀ r : SyncRow, (serializar_fila (dropna_to_dict r)).length = numPresent r := by
  refine ⟨rfl, fun r => ?_⟩
  simp [serializar_fila, dropna_to_dict, numPresent, optEntry_length]
  omega

/-- A work item whose raw start date is the unparseable string
`"not-a-date"`. -/
def obraDemo : Obra :=
  { id := 1, nombre_obra := some "Obra X", proyecto_id := none,
    estado := some "En curso", fecha_inicio := Raw.text "not-a-date",
    fecha_fin := Raw.null, responsable_id := none, fase := none }

/-- A database containing only `obraDemo`. -/
def dbDemo : DB := { proyectos := [], responsables := [], obras := [obraDemo] }

/-- Claim C8: an unparseable raw start date (such as the string
`"not-a-date"`) yields an absent start date and an absent derived year,
with no error raised (the extractor is a total function); and the
derived year always equals the year of the start date when present. -/
theorem unparseable_fecha_inicio_yields_absent (db : DB) (o : Obra)
    (h : pd_to_datetime_coerce o.fecha_inicio = none) :
    pd_to_datetime_coerce (Raw.text "not-a-date") = none ∧
    (syncRowOf db o).fecha_inicio = none ∧
    (syncRowOf db o).anio = none ∧
    ∀ (db2 : DB) (o2 : Obra),
      (syncRowOf db2 o2).anio = ((syncRowOf db2 o2).fecha_inicio).map PyDate.year := by
  refine ⟨rfl, ?_, ?_, fun db2 o2 => rfl⟩ <;> simp [syncRowOf, h]

/-- Concrete instance of the previous theorem: the database holding one
work item whose raw start date is `"not-a-date"`. -/
theorem unparseable_fecha_inicio_yields_absent_witness :
    pd_to_datetime_coerce (Raw.text "not-a-date") = none ∧
    (syncRowOf dbDemo obraDemo).fecha_inicio = none ∧
    (syncRowOf dbDemo obraDemo).anio = none :=
  let h := unparseable_fecha_inicio_yields_absent dbDemo obraDemo rfl
  ⟨h.1, h.2.1, h.2.2.1⟩

theorem chunks_length_pos {α : Type} (k : Nat) (hk : 0 < k) (l : List α) :
    (chunks k l).length = (l.length + (k - 1)) / k := by
  match k, hk with
  | k + 1, _ =>
    have h : k + 1 - 1 = k := rfl
    rw [h, chunks_length k l]

theorem chunks_mem_length_pos {α : Type} (k : Nat) (hk : 0 < k) (l : List α) :
    ∀ b ∈ chunks k l, b.length ≤ k := by
  match k, hk with
  | k + 1, _ => exact chunks_mem_length k l

theorem chunks_flatten_pos {α : Type} (k : Nat) (hk : 0 < k) (l : List α) :
    (chunks k l).flatten = l := by
  match k, hk with
  | k + 1, _ => exact chunks_flatten k l

theorem flatten_map_map {α β : Type} (g : α → β) :
    ∀ L : List (List α), (L.map (fun c => c.map g)).flatten = L.flatten.map g := by
  intro L
  induction L with
  | nil => rfl
  | cons c L ih => simp only [List.map_cons, List.flatten_cons, List.map_append, ih]

/-- Claim C5: the purger issues exactly ceil(N/50) batched delete
requests for N existing remote row ids, each with at most 50 ids,
partitioning the id list in order; 120 ids give exactly 3 calls of
sizes 50, 50 and 20. -/
theorem eliminar_batches_ceil_div_50 (rows : List Item) :
    (eliminar_todas_las_filas rows).length = (rows.length + 49) / 50 ∧
    (∀ c ∈ eliminar_todas_las_filas rows, c.rowIds.length ≤ 50) ∧
    ((eliminar_todas_las_filas rows).map (fun c => c.rowIds)).flatten
      = rows.map (fun row => row.id) ∧
    (eliminar_todas_las_filas
        ((List.range 120).map (fun i => { id := Nat.repr i, name := "fila" }))).map
      (fun c => c.rowIds.length) = [50, 50, 20] := by
  refine ⟨?_, ?_, ?_, rfl⟩
  · simp only [eliminar_todas_las_filas, List.length_map]
    rw [chunks_length_pos 50 (by norm_num)]
    norm_num
  · intro c hc
    simp only [eliminar_todas_las_filas] at hc
    rcases List.mem_map.mp hc with ⟨b, hb, rfl⟩
    exact chunks_mem_length_pos 50 (by norm_num) _ b hb
  · simp only [eliminar_todas_las_filas, List.map_map]
    have h1 : ((fun c : DeleteCall => c.rowIds) ∘ fun b : List String =>
        ({ rowIds := b } : DeleteCall)) = id := rfl
    rw [h1, List.map_id, chunks_flatten_pos 50 (by norm_num)]

/-- Claim C6: the inserter issues exactly ceil(N/10) batched upload
requests for N rows, each carrying at most 10 rows, partitioning the
sequence in order; 25 rows give exactly 3 calls of sizes 10, 10, 5. -/
theorem insertar_batches_ceil_div_10 (resp : Nat → Nat → Nat) (filas : List Fila) :
    (insertar_filas_en_bloques resp filas 10 5).length = (filas.length + 9) / 10 ∧
    (∀ b ∈ insertar_filas_en_bloques resp filas 10 5, b.payload.length ≤ 10) ∧
    ((insertar_filas_en_bloques resp filas 10 5).map (fun b => b.payload)).flatten
      = filas.map serializar_fila ∧
    (insertar_filas_en_bloques (fun _ _ => 202)
        ((List.range 25).map (fun i => [("Nombre de la obra", Value.str (Nat.repr i))]))
        10 5).map (fun b => b.payload.length) = [10, 10, 5] := by
  refine ⟨?_, ?_, ?_, rfl⟩
  · simp only [insertar_filas_en_bloques, List.length_map, List.enum_length]
    rw [chunks_length_pos 10 (by norm_num)]
  · intro b hb
    simp only [insertar_filas_en_bloques] at hb
    rcases List.mem_map.mp hb with ⟨ib, hib, rfl⟩
    simp only [List.length_map]
    exact chunks_mem_length_pos 10 (by norm_num) _ ib.2
      (snd_mem_of_mem_enumFrom _ 0 ib hib)
  · simp only [insertar_filas_en_bloques, List.map_map]
    have h1 : ((fun b : BatchResult => b.payload) ∘ fun ib : Nat × List Fila =>
        ({ payload := ib.2.map serializar_fila,
           trace := subirBatch (resp ib.1) 5 } : BatchResult))
        = fun ib => ib.2.map serializar_fila := rfl
    rw [h1, show List.enum (chunks 10 filas) = List.enumFrom 0 (chunks 10 filas) from rfl,
      enumFrom_map_snd (fun c : List Fila => c.map serializar_fila), flatten_map_map,
      chunks_flatten_pos 10 (by norm_num)]

theorem obtener_documento_first_match (nombre : String) (d : Item) (post : List Item) :
    ∀ pre : List Item, (∀ x ∈ pre, x.name ≠ nombre) → d.name = nombre →
      obtener_documento_id_por_nombre (pre ++ d :: post) nombre = .ok d.id := by
  intro pre
  induction pre with
  | nil =>
    intro _ hd
    simp [obtener_documento_id_por_nombre, hd]
  | cons x xs ih =>
    intro hpre hd
    have hx : x.name ≠ nombre := hpre x (List.mem_cons_self x xs)
    simp only [List.cons_append, obtener_documento_id_por_nombre, if_neg hx]
    exact ih (fun y hy => hpre y (List.mem_cons_of_mem x hy)) hd

theorem obtener_table_first_match (nombre : String) (d : Item) (post : List Item) :
    ∀ pre : List Item, (∀ x ∈ pre, x.name ≠ nombre) → d.name = nombre →
      obtener_table_id (pre ++ d :: post) nombre = .ok d.id := by
  intro pre
  induction pre with
  | nil =>
    intro _ hd
    simp [obtener_table_id, hd]
  | cons x xs ih =>
    intro hpre hd
    have hx : x.name ≠ nombre := hpre x (List.mem_cons_self x xs)
    simp only [List.cons_append, obtener_table_id, if_neg hx]
    exact ih (fun y hy => hpre y (List.mem_cons_of_mem x hy)) hd

/-- Claim C10: when several documents (or tables) share the exact
target name, the locator returns the id of the first matching item in
listing order, and the ambiguity raises no error. -/
theorem first_name_match_wins (pre post : List Item) (d : Item) (nombre : String)
    (hpre : ∀ x ∈ pre, x.name ≠ nombre) (hd : d.name = nombre) :
    obtener_documento_id_por_nombre (pre ++ d :: post) nombre = .ok d.id ∧
    obtener_table_id (pre ++ d :: post) nombre = .ok d.id :=
  ⟨obtener_documento_first_match nombre d post pre hpre hd,
   obtener_table_first_match nombre d post pre hpre hd⟩

/-- Concrete instance of the previous theorem: two documents (tables)
both named `"Obras"`; the first one's id is returned and no error is
raised. -/
theorem first_name_match_wins_witness :
    obtener_documento_id_por_nombre
      ([] ++ ({ id := "d1", name := "Obras" } : Item) :: [{ id := "d2", name := "Obras" }])
      "Obras" = .ok "d1" ∧
    obtener_table_id
      ([] ++ ({ id := "d1", name := "Obras" } : Item) :: [{ id := "d2", name := "Obras" }])
      "Obras" = .ok "d1" :=
  first_name_match_wins [] [{ id := "d2", name := "Obras" }]
    { id := "d1", name := "Obras" } "Obras"
    (fun x hx => absurd hx (List.not_mem_nil x)) rfl

theorem subirBatchAux_all429 (resp : Nat → Nat) (h : ∀ j, resp j = 429) :
    ∀ fuel i, (subirBatchAux resp fuel i).outcome = Outcome.maxRetries ∧
      (subirBatchAux resp fuel i).posts = fuel := by
  intro fuel
  induction fuel with
  | zero => intro i; exact ⟨rfl, rfl⟩
  | succ fuel ih =>
    intro i
    constructor <;> simp [subirBatchAux, h i, (ih (i + 1)).1, (ih (i + 1)).2]

theorem subirBatch_posts_pos (resp : Nat → Nat) (fuel i : Nat) :
    1 ≤ (subirBatchAux resp (fuel + 1) i).posts := by
  simp only [subirBatchAux]
  split
  · exact Nat.le_refl 1
  · split
    · exact Nat.le_add_left 1 _
    · exact Nat.le_refl 1

/-- Claim C4: a batch rate-limited (429) on all 5 attempts is abandoned
without raising — the inserter is a total function whose loop for that
batch ends in the MaxRetries state after its 5 POSTs — and every
subsequent batch of the run is still submitted: the run still produces
one result per batch, each with at least one POST. -/
theorem batch_exhausted_silently_run_continues (resp : Nat → Nat → Nat)
    (filas : List Fila) (h : ∀ j, resp 0 j = 429) (hne : filas ≠ []) :
    ((insertar_filas_en_bloques resp filas 10 5).head?.map
        (fun b => (b.trace.posts, b.trace.outcome))) = some (5, Outcome.maxRetries) ∧
    (insertar_filas_en_bloques resp filas 10 5).length = (filas.length + 9) / 10 ∧
    ∀ b ∈ insertar_filas_en_bloques resp filas 10 5, 1 ≤ b.trace.posts := by
  obtain ⟨x, xs, rfl⟩ : ∃ x xs, filas = x :: xs := by
    cases filas with
    | nil => exact absurd rfl hne
    | cons x xs => exact ⟨x, xs, rfl⟩
  refine ⟨?_, ?_, ?_⟩
  · show some ((subirBatchAux (resp 0) 5 0).posts, (subirBatchAux (resp 0) 5 0).outcome)
        = some (5, Outcome.maxRetries)
    rw [(subirBatchAux_all429 (resp 0) h 5 0).2, (subirBatchAux_all429 (resp 0) h 5 0).1]
  · simp only [insertar_filas_en_bloques, List.length_map, List.enum_length]
    rw [chunks_length_pos 10 (by norm_num)]
  · intro b hb
    simp only [insertar_filas_en_bloques] at hb
    rcases List.mem_map.mp hb with ⟨ib, hib, rfl⟩
    exact subirBatch_posts_pos (resp ib.1) 4 0

/-- The response schedule of a server that rate-limits batch 0 forever
and accepts every other batch at once. -/
def resp429Demo : Nat → Nat → Nat := fun i _ => if i = 0 then 429 else 202

/-- Fifteen one-cell rows, which the inserter splits into two batches. -/
def filasDemo : List Fila :=
  (List.range 15).map (fun i => [("Nombre de la obra", Value.str (Nat.repr i))])

/-- Concrete instance of the previous theorem: 15 rows (two batches)
against a server that always rate-limits batch 0. -/
theorem batch_exhausted_silently_run_continues_witness :
    ((insertar_filas_en_bloques resp429Demo filasDemo 10 5).head?.map
        (fun b => (b.trace.posts, b.trace.outcome))) = some (5, Outcome.maxRetries) ∧
    (insertar_filas_en_bloques resp429Demo filasDemo 10 5).length
      = (filasDemo.length + 9) / 10 ∧
    ∀ b ∈ insertar_filas_en_bloques resp429Demo filasDemo 10 5, 1 ≤ b.trace.posts :=
  batch_exhausted_silently_run_continues resp429Demo filasDemo
    (fun _ => rfl) (by decide)

theorem obtener_documento_id_no_match (nombre : String) :
    ∀ documentos : List Item, (∀ d ∈ documentos, d.name ≠ nombre) →
      obtener_documento_id_por_nombre documentos nombre =
        .error ("No se encontró el documento con nombre " ++ nombre) := by
  intro documentos
  induction documentos with
  | nil => intro _; rfl
  | cons d rest ih =>
    intro hd
    have hx : d.name ≠ nombre := hd d (List.mem_cons_self d rest)
    simp only [obtener_documento_id_por_nombre, if_neg hx]
    exact ih (fun y hy => hd y (List.mem_cons_of_mem d hy))

theorem obtener_table_id_no_match (nombre : String) :
    ∀ tablas : List Item, (∀ t ∈ tablas, t.name ≠ nombre) →
      obtener_table_id tablas nombre =
        .error ("No se encontró la tabla " ++ nombre ++ " en el documento.") := by
  intro tablas
  induction tablas with
  | nil => intro _; rfl
  | cons t rest ih =>
    intro ht
    have hx : t.name ≠ nombre := ht t (List.mem_cons_self t rest)
    simp only [obtener_table_id, if_neg hx]
    exact ih (fun y hy => ht y (List.mem_cons_of_mem t hy))

/-- Claim C7: when the document name — or the table name within the
resolved document — has no exact case-sensitive match among the listed
items, the run aborts with the locator's ValueError, and no mutating
call (row DELETE or row POST) has been issued at that point. -/
theorem name_resolution_fails_before_mutation (w : World) (db : DB)
    (nombre_documento nombre_tabla : String)
    (h : (∀ d ∈ w.docs, d.name ≠ nombre_documento) ∨
         (∃ doc_id, obtener_documento_id_por_nombre w.docs nombre_documento = .ok doc_id ∧
            ∀ t ∈ w.tables doc_id, t.name ≠ nombre_tabla)) :
    (mainRun w db nombre_documento nombre_tabla).2.isSome = true ∧
    ∀ c ∈ (mainRun w db nombre_documento nombre_tabla).1, c.isMutating = false := by
  rcases h with h | ⟨doc_id, hok, htab⟩
  · simp only [mainRun, obtener_documento_id_no_match nombre_documento w.docs h]
    refine ⟨rfl, ?_⟩
    intro c hc
    rcases List.mem_cons.mp hc with rfl | hc
    · rfl
    · cases hc
  · simp only [mainRun, hok, obtener_table_id_no_match nombre_tabla (w.tables doc_id) htab]
    refine ⟨rfl, ?_⟩
    intro c hc
    rcases List.mem_cons.mp hc with rfl | hc
    · rfl
    · rcases List.mem_cons.mp hc with rfl | hc
      · rfl
      · cases hc

/-- A remote service with no documents at all. -/
def worldDemo : World :=
  { docs := [], tables := fun _ => [], rows := fun _ _ => [],
    insertResp := fun _ _ => 202 }

/-- Concrete instance of the previous theorem: a remote service with no
documents; resolution of any name fails with no mutating call made. -/
theorem name_resolution_fails_before_mutation_witness :
    (mainRun worldDemo dbDemo "Gestión de obras" "Obras").2.isSome = true ∧
    ∀ c ∈ (mainRun worldDemo dbDemo "Gestión de obras" "Obras").1,
      c.isMutating = false :=
  name_resolution_fails_before_mutation worldDemo dbDemo "Gestión de obras" "Obras"
    (Or.inl (fun d hd => absurd hd (List.not_mem_nil d)))

end Toroto
